import Mathlib

/-!
Verification development for the 0G HTTP gateway (src/gateway.ts).

The gateway is a retrieval cache between HTTP clients and a content-addressed
backend.  We shallowly embed the pure helpers (`parseRangeHeader`,
`isValidRootHash`, `safeName`, `makeETag`), the per-key single-flight download
coordination (`downloadToTmp` with the `downloadLocks` map and the LRU `cache`),
the progressive delivery loop (`streamWhileDownloadingToRes` / `pumpOnce`) and
the decision structure of the `GET /api/v1/storage/:rootHash` handler, and we
prove the specified properties about these embeddings.

JS strings are modelled as `List Char`; the relevant strings are ASCII, so this
is faithful.  JS numbers appearing here are non-negative integers well below
2^53, so `Nat`/`Int` arithmetic is exact.
-/

namespace Gateway

/-! ## Character classes -/

/-- Characters accepted by the regex class `[0-9a-fA-F]`. -/
def isHexDigitChar (c : Char) : Bool :=
  ('0' ≤ c && c ≤ '9') || ('a' ≤ c && c ≤ 'f') || ('A' ≤ c && c ≤ 'F')

/-- Characters accepted by the regex class `\d`. -/
def isDigitChar (c : Char) : Bool :=
  '0' ≤ c && c ≤ '9'

/-- Whitespace characters removed by `String.prototype.trim`. -/
def isWsChar (c : Char) : Bool :=
  c = ' ' || c = '\t' || c = '\n' || c = '\r'

/-- `s.trim()` on both ends. -/
def trimL (cs : List Char) : List Char :=
  ((cs.dropWhile isWsChar).reverse.dropWhile isWsChar).reverse

/-- The numeric value of a string of decimal digits (`parseInt(s, 10)` on a
non-empty all-digit string). -/
def digitsToNat (cs : List Char) : Nat :=
  cs.foldl (fun a c => a * 10 + (c.toNat - '0'.toNat)) 0

/-! ## RangeNegotiator: `parseRangeHeader` (gateway.ts lines 498-522)

The source matches the trimmed header against `^bytes=(\d*)-(\d*)$` and then
branches on the two captured digit groups.  A match of that regex is exactly:
the literal prefix `bytes=`, followed by a string that splits at a single `-`
into two (possibly empty) all-digit groups. -/

/-- The regex match `^bytes=(\d*)-(\d*)$`, returning the two captured groups. -/
def matchBytesEq (cs : List Char) : Option (List Char × List Char) :=
  match cs with
  | 'b' :: 'y' :: 't' :: 'e' :: 's' :: '=' :: rest =>
    match rest.splitOn '-' with
    | [a, b] => if a.all isDigitChar && b.all isDigitChar then some (a, b) else none
    | _ => none
  | _ => none

/-- A concrete byte window `{start, end}` as produced by `parseRangeHeader`.
Fields are `Int` because the source computes `fileSize - 1`, which is `-1`
for an empty file. -/
structure ByteRange where
  start : Int
  stop : Int
deriving DecidableEq, Repr

/-- Shallow embedding of `parseRangeHeader(rangeHeader, fileSize)`
(gateway.ts lines 498-522).  The `isNaN` checks of the source are vacuous on
all-digit capture groups and are dropped; `start < 0` is kept as in the
source. -/
def parseRangeHeaderL (rangeHeader : Option (List Char)) (fileSize : Nat) :
    Option ByteRange :=
  match rangeHeader with
  | none => none
  | some s =>
    match matchBytesEq (trimL s) with
    | none => none
    | some (first, last) =>
      if first.isEmpty && last.isEmpty then none
      else if first.isEmpty then
        -- suffix "-N" => last N bytes
        let suffixLen : Int := digitsToNat last
        if suffixLen ≤ 0 then none
        else some ⟨max 0 ((fileSize : Int) - suffixLen), (fileSize : Int) - 1⟩
      else
        let start : Int := digitsToNat first
        let e : Int := if last.isEmpty then (fileSize : Int) - 1 else digitsToNat last
        if start > e then none
        else if start < 0 || start ≥ (fileSize : Int) then none
        else some ⟨start, min e ((fileSize : Int) - 1)⟩

/-- String-level wrapper for `parseRangeHeaderL`. -/
def parseRangeHeader (rangeHeader : Option String) (fileSize : Nat) :
    Option ByteRange :=
  parseRangeHeaderL (rangeHeader.map String.data) fileSize


/-! ## Key validation: `isValidRootHash` (gateway.ts lines 49-56) -/

/-- `s.startsWith('0x')`: the first two characters are `0x`. -/
def startsWith0x (s : List Char) : Bool :=
  s.take 2 == "0x".data

/-- The test `/^0x[0-9a-fA-F]+$/.test(s)`: the string is `0x` followed by a
non-empty run of hexadecimal digits and nothing else. -/
def regexHex0x (s : List Char) : Bool :=
  s.take 2 == "0x".data && !(s.drop 2).isEmpty && (s.drop 2).all isHexDigitChar

/-- Shallow embedding of `isValidRootHash(rootHash)` (gateway.ts lines 49-56):
the `typeof` check is vacuous for a route parameter (always a string);
`startsWith('0x') && length === 66 && /^0x[0-9a-fA-F]+$/.test(s)`. -/
def isValidRootHash (s : List Char) : Bool :=
  startsWith0x s && s.length == 66 && regexHex0x s

/-- The spec's pattern `^0x[0-9a-fA-F]{64}$`, written from its words:
the string `0x` followed by exactly 64 hexadecimal digits. -/
def matches64 (s : List Char) : Bool :=
  s.take 2 == "0x".data && (s.drop 2).length == 64 && (s.drop 2).all isHexDigitChar

/-! ## safeName (gateway.ts lines 58-61) and base-36 timestamps -/

/-- Digit characters of `Number.prototype.toString(36)`: `0-9` then `a-z`. -/
def base36Char (m : Nat) : Char :=
  if m < 10 then Char.ofNat ('0'.toNat + m) else Char.ofNat ('a'.toNat + (m - 10))

/-- Fuel-indexed base-36 digit expansion (most significant first).  The fuel
only bounds recursion depth; any fuel > log36 n is enough. -/
def toBase36Aux : Nat → Nat → List Char
  | 0, _ => []
  | fuel + 1, n => if n = 0 then [] else toBase36Aux fuel (n / 36) ++ [base36Char (n % 36)]

/-- `n.toString(36)` for a non-negative integer `n`. -/
def toBase36 (n : Nat) : List Char :=
  if n = 0 then ['0'] else toBase36Aux (n + 1) n


/-- Characters that can appear in a `safeName` result: hexadecimal digits
(either case) or base-36 digits (`0-9`, `a-z`).  All are alphanumeric ASCII —
in particular not `/`, not `\` and not `.`. -/
def isSafeChar (c : Char) : Bool :=
  isHexDigitChar c || isDigitChar c || ('a' ≤ c && c ≤ 'z')

/-- Shallow embedding of `safeName(rootHash)` (gateway.ts lines 58-61), with
`Date.now()` passed explicitly as `now`:
strip an optional `0x` prefix, delete every non-hex character, keep at most
128 characters; if that leaves the empty string (falsy), use
`Date.now().toString(36)`. -/
def safeName (rootHash : List Char) (now : Nat) : List Char :=
  let s := if startsWith0x rootHash then rootHash.drop 2 else rootHash
  let h := (s.filter isHexDigitChar).take 128
  if h.isEmpty then toBase36 now else h


/-! ## ETag (gateway.ts lines 77-81) -/

/-- Fuel-indexed base-16 digit expansion, lower-case as in
`Number.prototype.toString(16)`. -/
def toHexAux : Nat → Nat → List Char
  | 0, _ => []
  | fuel + 1, n =>
    if n = 0 then []
    else toHexAux fuel (n / 16) ++
      [if n % 16 < 10 then Char.ofNat ('0'.toNat + n % 16)
       else Char.ofNat ('a'.toNat + (n % 16 - 10))]

/-- `n.toString(16)`. -/
def toHex (n : Nat) : List Char :=
  if n = 0 then ['0'] else toHexAux (n + 1) n

/-- Shallow embedding of `makeETag(stat)` (gateway.ts lines 77-81):
`"<size hex>-<mtime hex>"` surrounded by double quotes. -/
def makeETag (size mtimeMs : Nat) : List Char :=
  '"' :: toHex size ++ '-' :: toHex mtimeMs ++ ['"']


/-! ## The GET handler (gateway.ts lines 344-458)

We model the decision structure of `app.get('/api/v1/storage/:rootHash')` as a
function of the request and of the outcomes of the external effects it
performs (reading the demo HTML, the two streaming tiers, `downloadToTmp`,
`fsp.stat`).  Each effect outcome is an input; the function returns the
response that the handler produces for those outcomes. -/

/-- Value of a `Content-Range` header. -/
inductive CRange where
  /-- `bytes start-stop/total` on a 206. -/
  | window : Int → Int → Nat → CRange
  /-- `bytes */total` on a 416. -/
  | star : Nat → CRange
deriving DecidableEq, Repr

/-- What the response body is. -/
inductive RespBody where
  | demoHtml
  | directStream
  | progressiveStream
  | fullFile
  | fileWindow : Int → Int → RespBody
  | empty
deriving DecidableEq, Repr

/-- The observable parts of the HTTP response relevant to the claims. -/
structure Resp where
  status : Nat
  contentLength : Option Nat
  contentRange : Option CRange
  etag : Option (List Char)
  lastModified : Bool
  acceptRanges : Bool
  chunked : Bool
  body : RespBody
deriving DecidableEq, Repr

/-- Outcomes of the effects the GET handler performs, as inputs to the model. -/
structure GetEnv where
  /-- The request's `Range` header, if present. -/
  rangeHeader : Option (List Char)
  /-- The request's `Accept` header includes `text/html`. -/
  acceptHtml : Bool
  /-- Reading `public/video-player.html` succeeds. -/
  demoHtmlOk : Bool
  /-- `tryDirectStreamFromIndexer` succeeds. -/
  directStreamOk : Bool
  /-- `streamWhileDownloadingToRes` does not throw. -/
  progressiveOk : Bool
  /-- `downloadToTmp` result: `some fileSize` on success, `none` on failure. -/
  fetchOk : Option Nat
  /-- `fsp.stat` on the downloaded file succeeds. -/
  statOk : Bool
  /-- `stat.mtimeMs` of the downloaded file. -/
  mtimeMs : Nat
  /-- The request's `If-None-Match` header, if present. -/
  ifNoneMatch : Option (List Char)
deriving Repr

/-- The 400 response for an invalid root hash (gateway.ts line 346). -/
def resp400 : Resp :=
  { status := 400, contentLength := none, contentRange := none, etag := none,
    lastModified := false, acceptRanges := false, chunked := false, body := .empty }

/-- The demo-HTML response (gateway.ts lines 352-370). -/
def respDemo : Resp :=
  { status := 200, contentLength := none, contentRange := none, etag := none,
    lastModified := false, acceptRanges := false, chunked := false, body := .demoHtml }

/-- A chunked streaming 200 (both streaming tiers set `Transfer-Encoding:
chunked` and `Content-Type` only; no length, no validators). -/
def streamResp (b : RespBody) : Resp :=
  { status := 200, contentLength := none, contentRange := none, etag := none,
    lastModified := false, acceptRanges := false, chunked := true, body := b }

/-- The 502 on `downloadToTmp` failure (gateway.ts lines 395-398), sent
before any of the common headers are set. -/
def resp502 : Resp :=
  { status := 502, contentLength := none, contentRange := none, etag := none,
    lastModified := false, acceptRanges := false, chunked := false, body := .empty }

/-- The 500 on `fsp.stat` failure (gateway.ts lines 400-405). -/
def resp500 : Resp :=
  { status := 500, contentLength := none, contentRange := none, etag := none,
    lastModified := false, acceptRanges := false, chunked := false, body := .empty }

/-- The 304 conditional-GET response (gateway.ts lines 420-422); the common
headers (ETag, Last-Modified, Accept-Ranges) were already set. -/
def resp304 (etag : List Char) : Resp :=
  { status := 304, contentLength := none, contentRange := none,
    etag := some etag, lastModified := true, acceptRanges := true,
    chunked := false, body := .empty }

/-- The 416 response with `Content-Range: bytes */total`
(gateway.ts lines 426-429). -/
def resp416 (total : Nat) (etag : List Char) : Resp :=
  { status := 416, contentLength := none, contentRange := some (.star total),
    etag := some etag, lastModified := true, acceptRanges := true,
    chunked := false, body := .empty }

/-- The 206 response with `Content-Range: bytes start-stop/total` and
`Content-Length: stop - start + 1` (gateway.ts lines 430-443). -/
def resp206 (r : ByteRange) (total : Nat) (etag : List Char) : Resp :=
  { status := 206, contentLength := some (r.stop - r.start + 1).toNat,
    contentRange := some (.window r.start r.stop total),
    etag := some etag, lastModified := true, acceptRanges := true,
    chunked := false, body := .fileWindow r.start r.stop }

/-- The 200 full-body disk-backed response with `Content-Length`,
`Accept-Ranges`, `ETag`, `Last-Modified` (gateway.ts lines 446-457). -/
def resp200Full (size : Nat) (etag : List Char) : Resp :=
  { status := 200, contentLength := some size, contentRange := none,
    etag := some etag, lastModified := true, acceptRanges := true,
    chunked := false, body := .fullFile }

/-- Shallow embedding of the `GET /api/v1/storage/:rootHash` handler
(gateway.ts lines 344-458). -/
def handleGet (rootHash : List Char) (env : GetEnv) : Resp :=
  if !isValidRootHash rootHash then resp400
  else if env.rangeHeader.isNone && env.acceptHtml && env.demoHtmlOk then
    respDemo                                    -- lines 352-370
  else if env.rangeHeader.isNone && env.directStreamOk then
    streamResp .directStream                    -- lines 373-377
  else if env.rangeHeader.isNone && env.progressiveOk then
    streamResp .progressiveStream               -- lines 379-381
  else
    -- disk-backed / Range path (lines 389-458)
    match env.fetchOk with
    | none => resp502
    | some fileSize =>
      if !env.statOk then resp500
      else
        let etag := makeETag fileSize env.mtimeMs
        if env.ifNoneMatch == some etag then resp304 etag
        else
          match env.rangeHeader with
          | some rh =>
            match parseRangeHeaderL (some rh) fileSize with
            | none => resp416 fileSize etag
            | some r => resp206 r fileSize etag
          | none => resp200Full fileSize etag

/-- A valid 66-character root hash used in concrete scenarios. -/
def sampleKey : List Char :=
  "0xda5255f73287096e526638ea0ebc036c5a52d5fbd73c56a20e795e78e7a22735".data


/-! ## Download coordination (gateway.ts lines 27-28, 38-47, 461-495)

`downloadToTmp` runs on Node's single-threaded event loop.  Its entry section
— `cache.get(key)` (miss), `downloadLocks.has(key)`, the creation of the
download promise (which runs synchronously up to its first `await`) and
`downloadLocks.set(key, p)` — contains no `await`, so no other request can
interleave with it; we model the whole entry as one atomic step `enter`.  A
download promise settles later; we model its settlement as the atomic steps
`completeOk` / `completeFail` (the promise body after its first suspension,
plus the `finally` clause of `downloadToTmp`).

The LRU `cache` maps a key to `{path, size, addedAt}` metadata; its `dispose`
hook (eviction, lines 43-46) is a fire-and-forget `fsp.unlink` of the backing
file.  `files` models the contents of the scratch directory and
`activeReaders` the read streams currently open on a path. -/

/-- Metadata stored in the LRU cache for one key (gateway.ts line 40). -/
structure CacheMeta where
  path : List Char
  size : Nat
  addedAt : Nat
deriving DecidableEq, Repr

/-- Global mutable state of the gateway process relevant to download
coordination. -/
structure GwState where
  /-- The LRU `cache` index: key to metadata. -/
  cache : List (List Char × CacheMeta)
  /-- `downloadLocks`: key to the identity of the pending download promise. -/
  locks : List (List Char × Nat)
  /-- Names of the files currently existing in `TMP_DIR`. -/
  files : List (List Char)
  /-- Identity for the next download promise to be created. -/
  nextTask : Nat
  /-- Log of `indexer.download` invocations: (key, task identity). -/
  downloadLog : List (List Char × Nat)
  /-- Read streams currently open: (reader identity, file path). -/
  activeReaders : List (Nat × List Char)
deriving DecidableEq, Repr

/-- Remove a key from an association list (`Map.delete` / `cache.delete`). -/
def eraseKey {β : Type} (l : List (List Char × β)) (k : List Char) :
    List (List Char × β) :=
  l.filter (fun p => !(p.1 == k))

/-- What a caller of `downloadToTmp` got from the entry section. -/
inductive EnterResult where
  /-- Cache hit with the file still present: served `path` directly. -/
  | served : List Char → EnterResult
  /-- A download for the key was already pending: the caller awaits task `t`. -/
  | joined : Nat → EnterResult
  /-- The caller created download task `t` and invoked `indexer.download`. -/
  | started : Nat → EnterResult
deriving DecidableEq, Repr

/-- The lock check and promise creation of `downloadToTmp`
(gateway.ts lines 473-488): if a download for `key` is pending, join it;
otherwise create the promise (which deletes any leftover scratch file named
`key` and invokes `indexer.download` once) and record it in `downloadLocks`. -/
def lockCheck (s : GwState) (key : List Char) : GwState × EnterResult :=
  match s.locks.lookup key with
  | some t => (s, .joined t)
  | none =>
    let t := s.nextTask
    ({ s with
        locks := (key, t) :: s.locks,
        files := s.files.erase key,
        nextTask := t + 1,
        downloadLog := (key, t) :: s.downloadLog }, .started t)

/-- The entry section of `downloadToTmp(rootHash)` (gateway.ts lines 461-488)
for a caller whose key is `key = safeName(rootHash)`: consult the cache; on a
hit whose file still exists return its path; on a stale hit delete the entry
and fall through; otherwise go through the lock check. -/
def enter (s : GwState) (key : List Char) : GwState × EnterResult :=
  match s.cache.lookup key with
  | some meta =>
    if meta.path ∈ s.files then (s, .served meta.path)
    else lockCheck { s with cache := eraseKey s.cache key } key
  | none => lockCheck s key

/-- Settlement of download task for `key` when `indexer.download` returned no
error (gateway.ts lines 483-485 and the `finally` at 492-494): the scratch
file exists, its stat is recorded in the cache, and the lock is released. -/
def completeOk (s : GwState) (key : List Char) (size now : Nat) : GwState :=
  { s with
      files := key :: s.files.erase key,
      cache := (key, ⟨key, size, now⟩) :: eraseKey s.cache key,
      locks := eraseKey s.locks key }

/-- Settlement of download task for `key` when `indexer.download` returned an
error (gateway.ts lines 479-482 and the `finally` at 492-494): the partial
scratch file is deleted, no cache entry is written, the promise rejects, and
the lock is released. -/
def completeFail (s : GwState) (key : List Char) : GwState :=
  { s with
      files := s.files.erase key,
      locks := eraseKey s.locks key }

/-- `n` consecutive executions of the `downloadToTmp` entry section for the
same `key` (the serialization of `n` concurrent requests on the event loop),
collecting what each caller got. -/
def runEnters (key : List Char) : Nat → GwState → GwState × List EnterResult
  | 0, s => (s, [])
  | n + 1, s =>
    let (s', r) := enter s key
    let (s'', rs) := runEnters key n s'
    (s'', r :: rs)

/-- Number of `indexer.download` invocations recorded for `key`. -/
def downloadCount (s : GwState) (key : List Char) : Nat :=
  (s.downloadLog.filter (fun p => p.1 == key)).length

/-- LRU eviction of `key` (the `dispose` hook, gateway.ts lines 43-46):
the index entry is removed and the backing file is unlinked at once,
with no synchronization against `activeReaders`. -/
def evict (s : GwState) (key : List Char) : GwState :=
  match s.cache.lookup key with
  | none => s
  | some meta =>
    { s with cache := eraseKey s.cache key, files := s.files.erase meta.path }

/-- A cached GET that begins streaming the cached file: the entry section of
`downloadToTmp` hands the reader the cached path and a read stream opens on
it. -/
def startRead (s : GwState) (reader : Nat) (key : List Char) :
    GwState × Option (List Char) :=
  match enter s key with
  | (s', .served p) => ({ s' with activeReaders := (reader, p) :: s'.activeReaders }, some p)
  | (s', _) => (s', none)

/-! ## Progressive delivery (gateway.ts lines 203-304)

`streamWhileDownloadingToRes` starts `indexer.download` writing to a `.part`
file and polls: each iteration calls `pumpOnce` (read at most 512 KiB of new
bytes at the cursor and write them to the response); once the download promise
has settled — fulfilled OR rejected, since both `.then` and `.catch` set
`downloadCompleted` (line 232) — it calls `pumpOnce` one more time and breaks;
if the client closed, it breaks; otherwise it sleeps 150 ms and repeats.  The
`finally` clause closes the descriptor, unlinks the `.part` file and calls
`res.end()` on every path (lines 298-303); `res.destroy()` is never called.

We determinize the environment by a schedule: at poll iteration `i` the file
has size `size i`, the `downloadCompleted` flag reads `completed i`, and the
client-closed test reads `closed i`.  `fd.read` of an existing region is
modelled as returning the full requested amount. -/

/-- `maxChunk` (gateway.ts line 257). -/
def maxChunk : Nat := 512 * 1024

/-- One delivered chunk: byte offset and length. -/
structure Chunk where
  off : Nat
  len : Nat
deriving DecidableEq, Repr

/-- Shallow embedding of `pumpOnce` (gateway.ts lines 251-273): if the file
has grown past the cursor, read `min (size - position) maxChunk` bytes at the
cursor, write them to the response, and advance the cursor. -/
def pumpOnce (size pos : Nat) : Nat × List Chunk :=
  if pos < size then
    let readSize := min (size - pos) maxChunk
    (pos + readSize, [⟨pos, readSize⟩])
  else (pos, [])

/-- The poll loop of `streamWhileDownloadingToRes` (gateway.ts lines 276-295),
returning the final cursor and the chunks written.  `fuel` bounds the number
of iterations; a fuel-exhausted run returns what was delivered so far (the
real loop would continue, so theorems about complete runs pick schedules that
terminate within fuel). -/
def pumpLoop (size : Nat → Nat) (completed closed : Nat → Bool) :
    Nat → Nat → Nat → Nat × List Chunk
  | 0, _, pos => (pos, [])
  | fuel + 1, i, pos =>
    let (pos1, c1) := pumpOnce (size i) pos
    if completed i then
      -- attempt one final read and break (lines 281-288)
      let (pos2, c2) := pumpOnce (size i) pos1
      (pos2, c1 ++ c2)
    else if closed i then (pos1, c1)
    else
      let (pos', cs) := pumpLoop size completed closed fuel (i + 1) pos1
      (pos', c1 ++ cs)

/-- Observable outcome of one `streamWhileDownloadingToRes` call. -/
structure StreamOutcome where
  /-- Chunks written to the response, in order. -/
  chunks : List Chunk
  /-- Final read cursor (total bytes written). -/
  position : Nat
  /-- `res.end()` was called (the `finally`, line 302). -/
  resEnded : Bool
  /-- `res.destroy()` was called. -/
  resDestroyed : Bool
  /-- The `.part` scratch file was unlinked (the `finally`, line 301). -/
  tmpDeleted : Bool
deriving DecidableEq, Repr

/-- The synchronous head of `streamWhileDownloadingToRes` (gateway.ts lines
213-224): compute the `.part` path, remove any leftover, and kick off
`indexer.download(rootHash, tmpFile, false)` — one backend fetch invocation
per call, with no consultation of `downloadLocks` and no deduplication. -/
def streamStart (s : GwState) (key : List Char) : GwState :=
  let tmp := key ++ ".part".data
  { s with
      files := s.files.erase tmp,
      downloadLog := (key, s.nextTask) :: s.downloadLog,
      nextTask := s.nextTask + 1 }

/-- The remainder of `streamWhileDownloadingToRes` (gateway.ts lines 226-304)
under a given schedule: the poll loop, then the `finally` clause (close the
descriptor, unlink the `.part` file, `res.end()`).  The function never touches
the LRU `cache`. -/
def streamFinish (s : GwState) (key : List Char)
    (size : Nat → Nat) (completed closed : Nat → Bool) (fuel : Nat) :
    GwState × StreamOutcome :=
  let tmp := key ++ ".part".data
  let (pos, cs) := pumpLoop size completed closed fuel 0 0
  ({ s with files := s.files.erase tmp },
   { chunks := cs, position := pos, resEnded := true, resDestroyed := false,
     tmpDeleted := true })

/-- Shallow embedding of a complete `streamWhileDownloadingToRes` run
(gateway.ts lines 212-304) under a given schedule. -/
def streamWhileDownloadingToRes (s : GwState) (key : List Char)
    (size : Nat → Nat) (completed closed : Nat → Bool) (fuel : Nat) :
    GwState × StreamOutcome :=
  streamFinish (streamStart s key) key size completed closed fuel

/-! ## Spec-side range negotiation (for the refinement claim C7)

Modelled from the spec's words: a Range header has one of the three textual
forms `start-end`, `start-` and `-suffixLength`, and negotiation rejects
exactly when the header is syntactically invalid, `start > end`,
`start ≥ knownTotalSize`, or `suffixLength ≤ 0`. -/

/-- The three textual forms of a Range header named by the spec. -/
inductive RangeForm where
  /-- `start-end`. -/
  | startEnd : Nat → Nat → RangeForm
  /-- `start-` (open-ended). -/
  | startOpen : Nat → RangeForm
  /-- `-suffixLength` (last N bytes). -/
  | lastN : Nat → RangeForm
deriving DecidableEq, Repr

/-- Syntactic reading of a header into one of the spec's three forms;
`none` when the header is syntactically invalid. -/
def parseFormL (s : List Char) : Option RangeForm :=
  match matchBytesEq (trimL s) with
  | none => none
  | some (first, last) =>
    if first.isEmpty then
      if last.isEmpty then none else some (.lastN (digitsToNat last))
    else if last.isEmpty then some (.startOpen (digitsToNat first))
    else some (.startEnd (digitsToNat first) (digitsToNat last))

/-- The spec's rejection condition: syntactically invalid, or `start > end`,
or `start ≥ knownTotalSize`, or `suffixLength ≤ 0`. -/
def specRejects (s : List Char) (total : Nat) : Bool :=
  match parseFormL s with
  | none => true
  | some (.startEnd a b) => decide (a > b) || decide (a ≥ total)
  | some (.startOpen a) => decide (a ≥ total)
  | some (.lastN n) => decide (n ≤ 0)

/-- An initial gateway state: nothing cached, no pending download, empty
scratch directory. -/
def emptyGw : GwState :=
  { cache := [], locks := [], files := [], nextTask := 0, downloadLog := [],
    activeReaders := [] }

/-- The scratch-file key of `sampleKey`: `safeName` strips the `0x`. -/
def skey : List Char := safeName sampleKey 0

/-- Effect outcomes of a plain GET (no `Range`, `Accept` not HTML) in an
environment where direct indexer streaming works. -/
def envDirectTier : GetEnv :=
  { rangeHeader := none, acceptHtml := false, demoHtmlOk := false,
    directStreamOk := true, progressiveOk := false, fetchOk := some 1000,
    statOk := true, mtimeMs := 0, ifNoneMatch := none }

/-- Effect outcomes of a plain GET in an environment where direct streaming
fails and progressive delivery is used. -/
def envProgTier : GetEnv :=
  { rangeHeader := none, acceptHtml := false, demoHtmlOk := false,
    directStreamOk := false, progressiveOk := true, fetchOk := some 1000,
    statOk := true, mtimeMs := 0, ifNoneMatch := none }

/-- Effect outcomes of a plain GET that falls through to the disk-backed
path: both streaming tiers fail, the download succeeds with a 1000-byte
file. -/
def envDisk : GetEnv :=
  { rangeHeader := none, acceptHtml := false, demoHtmlOk := false,
    directStreamOk := false, progressiveOk := false, fetchOk := some 1000,
    statOk := true, mtimeMs := 0, ifNoneMatch := none }

/-- A gateway state holding one complete cached artifact for `skey`. -/
def c5State : GwState :=
  { cache := [(skey, ⟨skey, 5, 0⟩)], locks := [], files := [skey],
    nextTask := 0, downloadLog := [], activeReaders := [] }

/-! # Theorems -/

/-- Looking up the key just inserted at the head of an association list. -/
theorem lookup_cons_self {β : Type} (k : List Char) (b : β)
    (l : List (List Char × β)) : ((k, b) :: l).lookup k = some b := by
  simp [List.lookup]

/-- After `eraseKey`, the key is gone from the association list. -/
theorem lookup_eraseKey {β : Type} (l : List (List Char × β)) (k : List Char) :
    (eraseKey l k).lookup k = none := by
  induction l with
  | nil => rfl
  | cons p l ih =>
    obtain ⟨a, b⟩ := p
    simp only [eraseKey, List.filter_cons] at ih ⊢
    by_cases h : a = k
    · rw [show (!((a, b).1 == k)) = false by simp [h], if_neg (by simp)]
      exact ih
    · rw [show (!((a, b).1 == k)) = true by simp [h], if_pos rfl, List.lookup]
      rw [show (k == a) = false by
        simp only [beq_eq_false_iff_ne]; exact fun e => h e.symm]
      exact ih

/-- A `downloadToTmp` entry while a download for the key is pending and the
key is not cached: the caller joins the pending task and the state does not
change — in particular `indexer.download` is not invoked again. -/
theorem enter_of_pending (s : GwState) (key : List Char) (t : Nat)
    (hc : s.cache.lookup key = none) (hl : s.locks.lookup key = some t) :
    enter s key = (s, .joined t) := by
  simp [enter, lockCheck, hc, hl]

/-- A `downloadToTmp` entry with no cache entry and no pending download:
the caller creates the task, invokes `indexer.download` once and records the
lock. -/
theorem enter_of_fresh (s : GwState) (key : List Char)
    (hc : s.cache.lookup key = none) (hl : s.locks.lookup key = none) :
    enter s key =
      ({ s with locks := (key, s.nextTask) :: s.locks,
                files := s.files.erase key,
                nextTask := s.nextTask + 1,
                downloadLog := (key, s.nextTask) :: s.downloadLog },
       .started s.nextTask) := by
  simp [enter, lockCheck, hc, hl]

/-- Any number of `downloadToTmp` entries while a download for the key is
pending: every caller joins the same task, the state never changes. -/
theorem runEnters_pending (key : List Char) (t : Nat) :
    ∀ (n : Nat) (s : GwState), s.cache.lookup key = none →
      s.locks.lookup key = some t →
      runEnters key n s = (s, List.replicate n (.joined t)) := by
  intro n
  induction n with
  | zero => intro s _ _; rfl
  | succ m ih =>
    intro s hc hl
    simp [runEnters, enter_of_pending s key t hc hl, ih s hc hl,
      List.replicate_succ]

/-- C1 counterexample: the single-flight guarantee does not cover every
request.  A plain GET (no `Range` header) is routed to the streaming tiers,
and `streamWhileDownloadingToRes` invokes `indexer.download` unconditionally,
without consulting `downloadLocks`: two such concurrent requests for the same
key, with no cache entry present, invoke the backend fetch primitive twice. -/
theorem c1_streaming_tier_double_fetch :
    handleGet sampleKey envProgTier = streamResp .progressiveStream ∧
    downloadCount (streamStart (streamStart emptyGw skey) skey) skey = 2 := by
  constructor
  · decide
  · decide

/-- C1 (amended): for requests served through `downloadToTmp` (the
disk-backed path used by `Range` GETs and HEAD), if `n ≥ 2` requests for a
key arrive concurrently while no cache entry and no pending download for the
key exist, `indexer.download` is invoked exactly once for that key, and every
requester observes that single invocation: the first caller starts task
`t = nextTask` and all the others join the same task `t`. -/
theorem c1_downloadToTmp_single_flight (s0 : GwState) (key : List Char)
    (n : Nat) (hc : s0.cache.lookup key = none)
    (hl : s0.locks.lookup key = none) (hlog : downloadCount s0 key = 0)
    (hn : 2 ≤ n) :
    downloadCount (runEnters key n s0).1 key = 1 ∧
    (runEnters key n s0).2 =
      .started s0.nextTask :: List.replicate (n - 1) (.joined s0.nextTask) := by
  obtain ⟨m, rfl⟩ : ∃ m, n = m + 1 := ⟨n - 1, by omega⟩
  have he := enter_of_fresh s0 key hc hl
  have hc1 : (enter s0 key).1.cache.lookup key = none := by rw [he]; exact hc
  have hl1 : (enter s0 key).1.locks.lookup key = some s0.nextTask := by
    rw [he]; exact lookup_cons_self key s0.nextTask s0.locks
  have hrun := runEnters_pending key s0.nextTask m (enter s0 key).1 hc1 hl1
  have hcount : downloadCount (enter s0 key).1 key = 1 := by
    rw [he]
    simp only [downloadCount] at hlog ⊢
    simp [List.filter_cons, hlog]
  constructor
  · show downloadCount (runEnters key (m + 1) s0).1 key = 1
    simp only [runEnters]
    rw [hrun]
    exact hcount
  · simp only [runEnters]
    rw [hrun, he]
    simp

/-- Witness for `c1_downloadToTmp_single_flight` at a concrete input: the
empty gateway state, the sample key, two concurrent requests. -/
theorem c1_downloadToTmp_single_flight_witness :
    emptyGw.cache.lookup skey = none ∧
    downloadCount (runEnters skey 2 emptyGw).1 skey = 1 :=
  ⟨by decide,
   (c1_downloadToTmp_single_flight emptyGw skey 2 (by decide) (by decide)
      (by decide) (by decide)).1⟩

/-- C2: two concurrent requests enter `downloadToTmp` for an uncached key and
`indexer.download` fails.  Afterwards: the fetch primitive was invoked exactly
once (no retry within the request), the partially-written scratch file for
the key is gone, no cache entry for the key exists, the lock is released, and
a waiter whose `downloadToTmp` promise rejected is answered with 502 by the
GET handler. -/
theorem c2_fetch_failure_cleanup (s0 : GwState) (key : List Char)
    (hc : s0.cache.lookup key = none) (hl : s0.locks.lookup key = none)
    (hlog : downloadCount s0 key = 0) (hnd : s0.files.Nodup) :
    downloadCount (completeFail (enter (enter s0 key).1 key).1 key) key = 1 ∧
    (completeFail (enter (enter s0 key).1 key).1 key).cache.lookup key = none ∧
    key ∉ (completeFail (enter (enter s0 key).1 key).1 key).files ∧
    (completeFail (enter (enter s0 key).1 key).1 key).locks.lookup key = none ∧
    (∀ (env : GetEnv) (root : List Char), env.fetchOk = none →
      (env.rangeHeader ≠ none ∨
        (env.acceptHtml = false ∧ env.directStreamOk = false ∧
          env.progressiveOk = false)) →
      isValidRootHash root = true → handleGet root env = resp502) := by
  have he := enter_of_fresh s0 key hc hl
  have hc1 : (enter s0 key).1.cache.lookup key = none := by rw [he]; exact hc
  have hl1 : (enter s0 key).1.locks.lookup key = some s0.nextTask := by
    rw [he]; exact lookup_cons_self key s0.nextTask s0.locks
  have he1 : (enter (enter s0 key).1 key).1 = (enter s0 key).1 := by
    rw [enter_of_pending (enter s0 key).1 key s0.nextTask hc1 hl1]
  rw [he1, he]
  refine ⟨?_, ?_, ?_, ?_, ?_⟩
  · simp only [completeFail, downloadCount] at hlog ⊢
    simp [List.filter_cons, hlog]
  · exact hc
  · simp only [completeFail]
    intro hmem
    have h1 : (s0.files.erase key).Nodup := hnd.erase key
    rw [h1.mem_erase_iff] at hmem
    exact hmem.1 rfl
  · simp only [completeFail]
    exact lookup_eraseKey _ key
  · intro env root hf hcase hv
    rcases hcase with hr | ⟨ha, hd, hp⟩
    · obtain ⟨rh, hrh⟩ : ∃ rh, env.rangeHeader = some rh :=
        Option.ne_none_iff_exists'.mp hr
      simp [handleGet, hv, hrh, hf]
    · simp [handleGet, hv, ha, hd, hp, hf]

/-- Witness for `c2_fetch_failure_cleanup` at a concrete input: the empty
gateway state and the sample key. -/
theorem c2_fetch_failure_cleanup_witness :
    emptyGw.files.Nodup ∧
    skey ∉ (completeFail (enter (enter emptyGw skey).1 skey).1 skey).files :=
  ⟨List.nodup_nil,
   (c2_fetch_failure_cleanup emptyGw skey (by decide) (by decide) (by decide)
      List.nodup_nil).2.2.1⟩

/-- C3: evaluating `streamWhileDownloadingToRes` at a failing input.  The
download completes having written a 2 MiB (2097152-byte) artifact before the
first poll iteration.  The loop then performs only the in-loop `pumpOnce`
plus the single final `pumpOnce`, each bounded by `maxChunk` (512 KiB), and
breaks: the client is sent two contiguous chunks totalling 1048576 bytes —
half the artifact — and the response is then ended normally.  The delivered
offsets are strictly increasing and contiguous, but the total delivered does
not equal the final artifact size, contradicting the claim. -/
theorem c3_final_flush_truncation :
    (streamWhileDownloadingToRes emptyGw skey (fun _ => 2097152)
        (fun _ => true) (fun _ => false) 10).2.chunks =
      [⟨0, 524288⟩, ⟨524288, 524288⟩] ∧
    (streamWhileDownloadingToRes emptyGw skey (fun _ => 2097152)
        (fun _ => true) (fun _ => false) 10).2.position = 1048576 ∧
    (streamWhileDownloadingToRes emptyGw skey (fun _ => 2097152)
        (fun _ => true) (fun _ => false) 10).2.resEnded = true ∧
    (1048576 : Nat) ≠ 2097152 := by
  refine ⟨by decide, by decide, by decide, by decide⟩

/-- C4 counterexample: when the backing fetch fails, `downloadCompleted` is
set by the promise's `.catch` exactly as by `.then`; the loop flushes the
available partial bytes (here 10 bytes of a partial artifact), breaks, and
the `finally` clause calls `res.end()`.  The response IS completed normally
(`res.end()` called, `res.destroy()` never called), contradicting the claim
that the failure aborts the HTTP response. -/
theorem c4_failure_ends_response_normally :
    (streamWhileDownloadingToRes emptyGw skey (fun _ => 10) (fun _ => true)
        (fun _ => false) 10).2.resEnded = true ∧
    (streamWhileDownloadingToRes emptyGw skey (fun _ => 10) (fun _ => true)
        (fun _ => false) 10).2.resDestroyed = false ∧
    (streamWhileDownloadingToRes emptyGw skey (fun _ => 10) (fun _ => true)
        (fun _ => false) 10).2.chunks = [⟨0, 10⟩] := by
  refine ⟨by decide, by decide, by decide⟩

/-- C4 (amended): for every schedule — in particular whenever the backing
fetch fails — progressive delivery stops after at most one further flush of
already-written bytes, deletes its `.part` scratch file, completes the HTTP
response normally via `res.end()` (it never aborts it), and creates no cache
entry: the LRU cache is untouched by `streamWhileDownloadingToRes`. -/
theorem c4_no_cache_poisoning (s : GwState) (key : List Char)
    (size : Nat → Nat) (completed closed : Nat → Bool) (fuel : Nat) :
    (streamWhileDownloadingToRes s key size completed closed fuel).2.resEnded
        = true ∧
    (streamWhileDownloadingToRes s key size completed closed
        fuel).2.resDestroyed = false ∧
    (streamWhileDownloadingToRes s key size completed closed
        fuel).2.tmpDeleted = true ∧
    (streamWhileDownloadingToRes s key size completed closed fuel).1.cache
        = s.cache ∧
    (streamWhileDownloadingToRes s key size completed closed fuel).1.locks
        = s.locks := by
  refine ⟨rfl, rfl, rfl, rfl, rfl⟩

/-- C5 counterexample: a reader is handed the cached artifact path for a key
(`startRead` returns the cached path and opens a read stream on it), and a
subsequent eviction of that key unlinks the backing file immediately — the
`dispose` hook is a fire-and-forget delete with no synchronization against
active readers — so the file is deleted out from under the still-active
read. -/
theorem c5_evict_under_active_reader :
    (startRead c5State 7 skey).2 = some skey ∧
    (7, skey) ∈ (evict (startRead c5State 7 skey).1 skey).activeReaders ∧
    skey ∉ (evict (startRead c5State 7 skey).1 skey).files := by
  refine ⟨by decide, by decide, by decide⟩

/-- C5 (amended): eviction of a cached key removes the index entry and
unlinks the backing artifact in the same step, but performs no
synchronization with readers: the set of active readers is untouched, and
the deletion happens regardless of whether any reader currently holds the
artifact path. -/
theorem c5_evict_is_unsynchronized (s : GwState) (key : List Char)
    (meta : CacheMeta) (h : s.cache.lookup key = some meta) :
    (evict s key).cache.lookup key = none ∧
    (evict s key).files = s.files.erase meta.path ∧
    (evict s key).activeReaders = s.activeReaders := by
  refine ⟨?_, ?_, ?_⟩
  · simp only [evict, h]
    exact lookup_eraseKey _ key
  · simp only [evict, h]
  · simp only [evict, h]

/-- Witness for `c5_evict_is_unsynchronized` at a concrete input: the state
with one cached artifact for the sample key. -/
theorem c5_evict_is_unsynchronized_witness :
    c5State.cache.lookup skey = some ⟨skey, 5, 0⟩ ∧
    (evict c5State skey).cache.lookup skey = none :=
  ⟨by decide, (c5_evict_is_unsynchronized c5State skey ⟨skey, 5, 0⟩ (by decide)).1⟩

/-- C6: range negotiation on a 1000-byte object maps `bytes=0-99` to (0,99),
`bytes=900-` to (900,999), `bytes=-100` to (900,999), rejects
`bytes=2000-3000` (→ 416), and an absent `Range` header is whole-object mode,
not an error: the handler serves a 200 full-body response from the disk path
(and both parse helpers treat the absent header as `none` without touching
the 416 path). -/
theorem c6_range_examples :
    parseRangeHeader (some "bytes=0-99") 1000 = some ⟨0, 99⟩ ∧
    parseRangeHeader (some "bytes=900-") 1000 = some ⟨900, 999⟩ ∧
    parseRangeHeader (some "bytes=-100") 1000 = some ⟨900, 999⟩ ∧
    parseRangeHeader (some "bytes=2000-3000") 1000 = none ∧
    handleGet sampleKey envDisk = resp200Full 1000 (makeETag 1000 0) := by
  refine ⟨by decide, by decide, by decide, by decide, by decide⟩

/-- C7 counterexample: for total size 0 (an empty object) the suffix form is
accepted: `bytes=-100` against size 0 yields the window (0, -1), which
violates the claimed invariant `0 ≤ start ≤ end < totalSize` (here
`start ≤ end` fails: 0 > -1), and is not rejected although no clause of the
claim's rejection condition licenses acceptance of an empty window. -/
theorem c7_empty_file_suffix_accepted :
    parseRangeHeader (some "bytes=-100") 0 = some ⟨0, -1⟩ ∧
    ¬ ((0 : Int) ≤ -1) := by
  refine ⟨by decide, by decide⟩

/-- C7 (amended): for every Range header text and every known total size
of at least 1 byte, `parseRangeHeader` rejects exactly when the header is
syntactically invalid, or `start > end`, or `start ≥ totalSize`, or the
suffix length is ≤ 0; every accepted window satisfies
`0 ≤ start ≤ end < totalSize`, and the window is the header's window with
`end` clamped to `totalSize - 1`.  (For total size 0 the suffix form
escapes this characterization, see the counterexample.) -/
theorem c7_reject_iff_and_invariant (s : List Char) (total : Nat)
    (ht : 1 ≤ total) :
    (parseRangeHeaderL (some s) total = none ↔ specRejects s total = true) ∧
    (∀ r, parseRangeHeaderL (some s) total = some r →
      0 ≤ r.start ∧ r.start ≤ r.stop ∧ r.stop < (total : Int)) ∧
    (∀ a b, parseFormL s = some (.startEnd a b) →
      parseRangeHeaderL (some s) total = none ∨
      parseRangeHeaderL (some s) total =
        some ⟨a, min (b : Int) ((total : Int) - 1)⟩) ∧
    (∀ a, parseFormL s = some (.startOpen a) →
      parseRangeHeaderL (some s) total = none ∨
      parseRangeHeaderL (some s) total = some ⟨a, (total : Int) - 1⟩) ∧
    (∀ n, parseFormL s = some (.lastN n) →
      parseRangeHeaderL (some s) total = none ∨
      parseRangeHeaderL (some s) total =
        some ⟨max 0 ((total : Int) - n), (total : Int) - 1⟩) := by
  simp only [parseRangeHeaderL, specRejects, parseFormL]
  cases hm : matchBytesEq (trimL s) with
  | none => simp
  | some fl =>
    obtain ⟨first, last⟩ := fl
    by_cases hf : first.isEmpty = true
    · by_cases hl : last.isEmpty = true
      · simp [hf, hl]
      · -- suffix form "-N"
        by_cases hn : digitsToNat last = 0
        · simp [hf, hl, hn]
        · have hn1 : 1 ≤ digitsToNat last := by omega
          have hle : ¬ ((digitsToNat last : Int) ≤ 0) := by
            intro h; omega
          simp only [hf, hl, Bool.and_false, Bool.false_eq_true, if_false,
            if_true, hle, decide_eq_true_eq]
          refine ⟨?_, ?_, ?_, ?_, ?_⟩
          · simp [hn]
          · intro r hr
            rw [Option.some_inj] at hr
            subst hr
            dsimp only
            refine ⟨le_max_left _ _, max_le (by omega) (by omega), by omega⟩
          · intro a b hab; simp at hab
          · intro a hab; simp at hab
          · intro n hn'
            rw [Option.some_inj, RangeForm.lastN.injEq] at hn'
            subst hn'
            right; trivial
    · -- forms "a-b" and "a-"
      by_cases hl : last.isEmpty = true
      · -- open-ended "a-"
        by_cases ha : total ≤ digitsToNat first
        · have hgt : (digitsToNat first : Int) > (total : Int) - 1 := by omega
          simp only [hf, hl, Bool.false_and, Bool.false_eq_true, if_false,
            if_true, hgt, decide_eq_true_eq]
          refine ⟨by simp [ha], by simp, ?_, ?_, ?_⟩
          · intro a b hab; simp at hab
          · intro a hab
            rw [Option.some_inj, RangeForm.startOpen.injEq] at hab
            left; trivial
          · intro n hn'; simp at hn'
        · have hgt : ¬ ((digitsToNat first : Int) > (total : Int) - 1) := by
            omega
          have hlt : ¬ ((digitsToNat first : Int) < 0 ||
              (digitsToNat first : Int) ≥ (total : Int)) = true := by
            simp only [Bool.or_eq_true, decide_eq_true_eq]
            push_neg
            omega
          simp only [hf, hl, Bool.false_and, Bool.false_eq_true, if_false,
            if_true, hgt, hlt, decide_eq_true_eq, min_self]
          refine ⟨by simp [ha], ?_, ?_, ?_, ?_⟩
          · intro r hr
            rw [Option.some_inj] at hr
            subst hr
            dsimp only
            refine ⟨by omega, by omega, by omega⟩
          · intro a b hab; simp at hab
          · intro a hab
            rw [Option.some_inj, RangeForm.startOpen.injEq] at hab
            subst hab
            right; trivial
          · intro n hn'; simp at hn'
      · -- two-sided "a-b"
        by_cases hab : digitsToNat last < digitsToNat first
        · have hgt : (digitsToNat first : Int) > (digitsToNat last : Int) := by
            omega
          simp only [hf, hl, Bool.false_and, Bool.false_eq_true, if_false,
            hgt, if_true, decide_eq_true_eq]
          refine ⟨by simp; omega, by simp, ?_, ?_, ?_⟩
          · intro a b hab'
            rw [Option.some_inj, RangeForm.startEnd.injEq] at hab'
            left; trivial
          · intro a hab'; simp at hab'
          · intro n hn'; simp at hn'
        · have hgt : ¬ ((digitsToNat first : Int) > (digitsToNat last : Int)) := by
            omega
          by_cases ha : total ≤ digitsToNat first
          · have hge : ((digitsToNat first : Int) < 0 ||
                (digitsToNat first : Int) ≥ (total : Int)) = true := by
              simp only [Bool.or_eq_true, decide_eq_true_eq]
              right; omega
            simp only [hf, hl, Bool.false_and, Bool.false_eq_true, if_false,
              hgt, hge, if_true, decide_eq_true_eq]
            refine ⟨by simp; omega, by simp, ?_, ?_, ?_⟩
            · intro a b hab'
              rw [Option.some_inj, RangeForm.startEnd.injEq] at hab'
              left; trivial
            · intro a hab'; simp at hab'
            · intro n hn'; simp at hn'
          · have hge : ¬ ((digitsToNat first : Int) < 0 ||
                (digitsToNat first : Int) ≥ (total : Int)) = true := by
              simp only [Bool.or_eq_true, decide_eq_true_eq]
              push_neg
              omega
            simp only [hf, hl, Bool.false_and, Bool.false_eq_true, if_false,
              hgt, hge, if_true, decide_eq_true_eq]
            refine ⟨by simp; omega, ?_, ?_, ?_, ?_⟩
            · intro r hr
              rw [Option.some_inj] at hr
              subst hr
              dsimp only
              refine ⟨by omega, le_min (by omega) (by omega), by
                simp only [min_lt_iff]; right; omega⟩
            · intro a b hab'
              rw [Option.some_inj, RangeForm.startEnd.injEq] at hab'
              obtain ⟨h1, h2⟩ := hab'
              subst h1; subst h2
              right; trivial
            · intro a hab'; simp at hab'
            · intro n hn'; simp at hn'

/-- Witness for `c7_reject_iff_and_invariant` at a concrete input: the header
`bytes=0-99` against a 1000-byte object. -/
theorem c7_reject_iff_and_invariant_witness :
    (1 ≤ 1000) ∧
    (parseRangeHeaderL (some "bytes=0-99".data) 1000 = none ↔
      specRejects "bytes=0-99".data 1000 = true) :=
  ⟨by decide,
   (c7_reject_iff_and_invariant "bytes=0-99".data 1000 (by decide)).1⟩

/-- C8 counterexample: a GET of a valid key with no `Range` header is served
by the direct-streaming tier with a chunked 200 that carries no `ETag`, no
`Content-Length` and no `Last-Modified`, contradicting the claim that a
no-Range 200 response carries those headers (and that `If-None-Match` is
honored on that path). -/
theorem c8_streaming_tier_lacks_validators :
    (handleGet sampleKey envDirectTier).status = 200 ∧
    envDirectTier.rangeHeader = none ∧
    (handleGet sampleKey envDirectTier).etag = none ∧
    (handleGet sampleKey envDirectTier).contentLength = none ∧
    (handleGet sampleKey envDirectTier).lastModified = false ∧
    (handleGet sampleKey envDirectTier).chunked = true := by
  refine ⟨by decide, by decide, by decide, by decide, by decide, by decide⟩

/-- C8 (amended): for every GET of a valid key: a satisfiable `Range` is
answered 206 with `Content-Range: bytes start-end/total`; an unsatisfiable
`Range` is answered 416 with `Content-Range: bytes */total`; an upstream
fetch failure on the disk-backed path is answered 502; a matching
`If-None-Match` on the disk-backed path is answered 304; a no-Range request
that falls through to the disk-backed path is answered 200 with
`Content-Length`, `Accept-Ranges: bytes`, `ETag` (derived from size and
mtime) and `Last-Modified`; but a no-Range request served by a streaming
tier is answered with a chunked 200 carrying none of those validators. -/
theorem c8_response_matrix (root : List Char) (env : GetEnv)
    (hv : isValidRootHash root = true) :
    (∀ rh, env.rangeHeader = some rh → env.fetchOk = none →
      handleGet root env = resp502) ∧
    (∀ rh size, env.rangeHeader = some rh → env.fetchOk = some size →
      env.statOk = true →
      env.ifNoneMatch = some (makeETag size env.mtimeMs) →
      handleGet root env = resp304 (makeETag size env.mtimeMs)) ∧
    (∀ rh size, env.rangeHeader = some rh → env.fetchOk = some size →
      env.statOk = true →
      env.ifNoneMatch ≠ some (makeETag size env.mtimeMs) →
      parseRangeHeaderL (some rh) size = none →
      handleGet root env = resp416 size (makeETag size env.mtimeMs)) ∧
    (∀ rh size r, env.rangeHeader = some rh → env.fetchOk = some size →
      env.statOk = true →
      env.ifNoneMatch ≠ some (makeETag size env.mtimeMs) →
      parseRangeHeaderL (some rh) size = some r →
      handleGet root env = resp206 r size (makeETag size env.mtimeMs)) ∧
    (∀ size, env.rangeHeader = none → env.acceptHtml = false →
      env.directStreamOk = false → env.progressiveOk = false →
      env.fetchOk = some size → env.statOk = true →
      env.ifNoneMatch ≠ some (makeETag size env.mtimeMs) →
      handleGet root env = resp200Full size (makeETag size env.mtimeMs)) ∧
    (env.rangeHeader = none → env.acceptHtml = false →
      env.directStreamOk = true →
      handleGet root env = streamResp .directStream) ∧
    (env.rangeHeader = none → env.acceptHtml = false →
      env.directStreamOk = false → env.progressiveOk = true →
      handleGet root env = streamResp .progressiveStream) := by
  refine ⟨?_, ?_, ?_, ?_, ?_, ?_, ?_⟩
  · intro rh hrh hf
    simp [handleGet, hv, hrh, hf]
  · intro rh size hrh hf hst hmatch
    simp [handleGet, hv, hrh, hf, hst, hmatch]
  · intro rh size hrh hf hst hne hp
    have hbe : (env.ifNoneMatch == some (makeETag size env.mtimeMs)) = false :=
      beq_eq_false_iff_ne.mpr hne
    simp [handleGet, hv, hrh, hf, hst, hbe, hp]
  · intro rh size r hrh hf hst hne hp
    have hbe : (env.ifNoneMatch == some (makeETag size env.mtimeMs)) = false :=
      beq_eq_false_iff_ne.mpr hne
    simp [handleGet, hv, hrh, hf, hst, hbe, hp]
  · intro size hr ha hd hp hf hst hne
    have hbe : (env.ifNoneMatch == some (makeETag size env.mtimeMs)) = false :=
      beq_eq_false_iff_ne.mpr hne
    simp [handleGet, hv, hr, ha, hd, hp, hf, hst, hbe]
  · intro hr ha hd
    simp [handleGet, hv, hr, ha, hd]
  · intro hr ha hd hp
    simp [handleGet, hv, hr, ha, hd, hp]

/-- Witness for `c8_response_matrix` at a concrete input: a satisfiable range
request for the first 100 bytes of a 1000-byte cached object. -/
theorem c8_response_matrix_witness :
    isValidRootHash sampleKey = true ∧
    handleGet sampleKey
        { envDisk with rangeHeader := some "bytes=0-99".data } =
      resp206 ⟨0, 99⟩ 1000 (makeETag 1000 0) :=
  ⟨by decide,
   (c8_response_matrix sampleKey
      { envDisk with rangeHeader := some "bytes=0-99".data }
      (by decide)).2.2.2.1 "bytes=0-99".data 1000 ⟨0, 99⟩ rfl rfl rfl
      (by decide) (by decide)⟩

/-- C9: `isValidRootHash` accepts a key if and only if it matches
`^0x[0-9a-fA-F]{64}$`, and the GET handler answers any non-matching key with
the 400 response — independently of every effect outcome, i.e. before any
fetch or cache access can influence the response. -/
theorem c9_key_validation (s : List Char) :
    isValidRootHash s = matches64 s ∧
    (matches64 s = false → ∀ env : GetEnv, handleGet s env = resp400) := by
  have hiff : isValidRootHash s = matches64 s := by
    rw [Bool.eq_iff_iff]
    simp only [isValidRootHash, matches64, startsWith0x, regexHex0x,
      Bool.and_eq_true, beq_iff_eq, Bool.not_eq_true', List.isEmpty_eq_false,
      ne_eq, List.length_drop]
    constructor
    · rintro ⟨⟨ht2, hlen⟩, ⟨-, -⟩, hhex⟩
      exact ⟨⟨ht2, by omega⟩, hhex⟩
    · rintro ⟨⟨ht2, hlen⟩, hhex⟩
      have h2 : 2 ≤ s.length := by
        have := congrArg List.length ht2
        simp [List.length_take] at this
        omega
      refine ⟨⟨ht2, by omega⟩, ⟨ht2, ?_⟩, hhex⟩
      intro hnil
      have := congrArg List.length hnil
      simp [List.length_drop] at this
      omega
  refine ⟨hiff, ?_⟩
  intro hm env
  have hv : isValidRootHash s = false := by rw [hiff]; exact hm
  simp [handleGet, hv]

/-- Witness for `c9_key_validation` at a concrete input: the malformed key
`zz` is rejected with 400 regardless of the environment. -/
theorem c9_key_validation_witness :
    matches64 "zz".data = false ∧ handleGet "zz".data envDisk = resp400 :=
  ⟨by decide, (c9_key_validation "zz".data).2 (by decide) envDisk⟩

/-- A `safeName`-alphabet character is not a path separator and not a dot. -/
theorem isSafeChar_not_special (c : Char) (h : isSafeChar c = true) :
    c ≠ '/' ∧ c ≠ '\\' ∧ c ≠ '.' := by
  refine ⟨?_, ?_, ?_⟩ <;> · rintro rfl; exact absurd h (by decide)

/-- Hexadecimal digits are `safeName`-alphabet characters. -/
theorem isSafeChar_of_hex (c : Char) (h : isHexDigitChar c = true) :
    isSafeChar c = true := by
  simp [isSafeChar, h]

/-- Every base-36 digit character is in the `safeName` alphabet. -/
theorem base36Char_safe : ∀ m, m < 36 → isSafeChar (base36Char m) = true := by
  decide

/-- Every character of a base-36 expansion is in the `safeName` alphabet. -/
theorem toBase36Aux_safe :
    ∀ (fuel n : Nat), ∀ c ∈ toBase36Aux fuel n, isSafeChar c = true := by
  intro fuel
  induction fuel with
  | zero => intro n c hc; simp [toBase36Aux] at hc
  | succ f ih =>
    intro n c hc
    by_cases hn : n = 0
    · simp [toBase36Aux, hn] at hc
    · simp only [toBase36Aux, hn, if_false, List.mem_append,
        List.mem_singleton] at hc
      rcases hc with hc | rfl
      · exact ih _ c hc
      · exact base36Char_safe _ (Nat.mod_lt _ (by decide))

/-- Every character of a base-36 timestamp is in the `safeName` alphabet. -/
theorem toBase36_safe (n : Nat) : ∀ c ∈ toBase36 n, isSafeChar c = true := by
  intro c hc
  by_cases hn : n = 0
  · simp [toBase36, hn] at hc; subst hc; decide
  · simp only [toBase36, hn, if_false] at hc
    exact toBase36Aux_safe _ _ c hc

/-- A base-36 timestamp is never the empty string. -/
theorem toBase36_ne_nil (n : Nat) : toBase36 n ≠ [] := by
  by_cases hn : n = 0
  · simp [toBase36, hn]
  · simp [toBase36, toBase36Aux, hn]

/-- A base-36 expansion of `n < 36^k` has at most `k` digits. -/
theorem toBase36Aux_length : ∀ (fuel k n : Nat), n < 36 ^ k →
    (toBase36Aux fuel n).length ≤ k := by
  intro fuel
  induction fuel with
  | zero => intro k n _; simp [toBase36Aux]
  | succ f ih =>
    intro k n hn
    by_cases h0 : n = 0
    · simp [toBase36Aux, h0]
    · obtain ⟨k', rfl⟩ : ∃ k', k = k' + 1 := by
        rcases k with _ | k'
        · exfalso
          simp only [pow_zero] at hn
          omega
        · exact ⟨k', rfl⟩
      simp only [toBase36Aux, h0, if_false, List.length_append,
        List.length_singleton]
      have hdiv : n / 36 < 36 ^ k' := by
        rw [Nat.div_lt_iff_lt_mul (by norm_num)]
        calc n < 36 ^ (k' + 1) := hn
        _ = 36 ^ k' * 36 := by ring
      have := ih k' (n / 36) hdiv
      omega

/-- A base-36 timestamp below `36^128` has at most 128 digits. -/
theorem toBase36_length (n : Nat) (h : n < 36 ^ 128) :
    (toBase36 n).length ≤ 128 := by
  by_cases hn : n = 0
  · simp [toBase36, hn]
  · simp only [toBase36, hn, if_false]
    exact toBase36Aux_length _ _ _ h

/-- C10 counterexample: the input `0xzz` contains the hexadecimal digit `0`,
yet `safeName` returns the base-36 timestamp (here `Date.now() = 35`, giving
`z`), which is not a string of hexadecimal digits — the claim's trigger
"inputs containing no hex digits" mischaracterizes when the timestamp branch
is taken (the `0x` prefix is stripped before hex digits are counted). -/
theorem c10_hex_input_timestamp_output :
    safeName "0xzz".data 35 = ['z'] ∧
    ('0' ∈ "0xzz".data ∧ isHexDigitChar '0' = true) ∧
    isHexDigitChar 'z' = false := by
  refine ⟨by decide, ⟨by decide, by decide⟩, by decide⟩

/-- C10 (amended): for every input and timestamp `now < 36^128`, `safeName`
returns a non-empty string of at most 128 characters drawn from the safe
alphabet (hex digits or base-36 digits) — so it contains no path separator,
no backslash and no dot, and in particular is not `..`, keeping the joined
scratch path inside the temp directory; the result is either all
hexadecimal digits or (exactly when the input minus an optional `0x` prefix
contains no hex digit) the base-36 timestamp; and for an input matching
`^0x[0-9a-fA-F]{64}$` it is exactly the 64 hex digits with `0x` removed. -/
theorem c10_safeName_safety (rootHash : List Char) (now : Nat)
    (hnow : now < 36 ^ 128) :
    safeName rootHash now ≠ [] ∧
    (safeName rootHash now).length ≤ 128 ∧
    (∀ c ∈ safeName rootHash now, c ≠ '/' ∧ c ≠ '\\' ∧ c ≠ '.') ∧
    safeName rootHash now ≠ ['.', '.'] ∧
    ((safeName rootHash now).all isHexDigitChar = true ∨
      ((if startsWith0x rootHash then rootHash.drop 2 else rootHash).filter
          isHexDigitChar = [] ∧
        safeName rootHash now = toBase36 now)) ∧
    (matches64 rootHash = true →
      safeName rootHash now = rootHash.drop 2 ∧
      (safeName rootHash now).length = 64) := by
  have hdef : safeName rootHash now =
      if (((if startsWith0x rootHash then rootHash.drop 2 else
          rootHash).filter isHexDigitChar).take 128).isEmpty
      then toBase36 now
      else ((if startsWith0x rootHash then rootHash.drop 2 else
          rootHash).filter isHexDigitChar).take 128 := rfl
  by_cases hE : (((if startsWith0x rootHash then rootHash.drop 2 else
      rootHash).filter isHexDigitChar).take 128).isEmpty = true
  · -- timestamp branch
    have hres : safeName rootHash now = toBase36 now := by
      rw [hdef, if_pos hE]
    have hfilter : (if startsWith0x rootHash then rootHash.drop 2 else
        rootHash).filter isHexDigitChar = [] := by
      rw [List.isEmpty_iff, List.take_eq_nil_iff] at hE
      rcases hE with h | h
      · exact absurd h (by decide)
      · exact h
    have hsafe : ∀ c ∈ safeName rootHash now, isSafeChar c = true := by
      rw [hres]; exact toBase36_safe now
    refine ⟨?_, ?_, ?_, ?_, ?_, ?_⟩
    · rw [hres]; exact toBase36_ne_nil now
    · rw [hres]; exact toBase36_length now hnow
    · intro c hc; exact isSafeChar_not_special c (hsafe c hc)
    · intro hdd
      have hmem : '.' ∈ safeName rootHash now := by rw [hdd]; simp
      exact (isSafeChar_not_special _ (hsafe _ hmem)).2.2 rfl
    · exact Or.inr ⟨hfilter, hres⟩
    · intro hv
      exfalso
      simp only [matches64, Bool.and_eq_true, beq_iff_eq] at hv
      obtain ⟨⟨ht2, hlen⟩, hall⟩ := hv
      have hst : startsWith0x rootHash = true := by
        simp [startsWith0x, ht2]
      rw [if_pos hst] at hfilter
      have hfeq : (rootHash.drop 2).filter isHexDigitChar = rootHash.drop 2 :=
        List.filter_eq_self.mpr (List.all_eq_true.mp hall)
      rw [hfeq] at hfilter
      rw [hfilter] at hlen
      simp at hlen
  · -- hex branch
    have hE' : (((if startsWith0x rootHash then rootHash.drop 2 else
        rootHash).filter isHexDigitChar).take 128).isEmpty = false :=
      eq_false_of_ne_true hE
    have hres : safeName rootHash now = ((if startsWith0x rootHash then
        rootHash.drop 2 else rootHash).filter isHexDigitChar).take 128 := by
      rw [hdef, hE']
      simp
    have hhex : ∀ c ∈ safeName rootHash now, isHexDigitChar c = true := by
      intro c hc
      rw [hres] at hc
      have := List.mem_of_mem_take hc
      exact (List.mem_filter.mp this).2
    refine ⟨?_, ?_, ?_, ?_, ?_, ?_⟩
    · rw [hres]
      rw [List.isEmpty_eq_false] at hE'
      exact hE'
    · rw [hres]
      exact List.length_take_le _ _
    · intro c hc
      exact isSafeChar_not_special c (isSafeChar_of_hex c (hhex c hc))
    · intro hdd
      have hmem : '.' ∈ safeName rootHash now := by rw [hdd]; simp
      exact absurd (hhex _ hmem) (by decide)
    · exact Or.inl (List.all_eq_true.mpr hhex)
    · intro hv
      simp only [matches64, Bool.and_eq_true, beq_iff_eq] at hv
      obtain ⟨⟨ht2, hlen⟩, hall⟩ := hv
      have hst : startsWith0x rootHash = true := by
        simp [startsWith0x, ht2]
      have hfeq : (rootHash.drop 2).filter isHexDigitChar = rootHash.drop 2 :=
        List.filter_eq_self.mpr (List.all_eq_true.mp hall)
      have htake : ((rootHash.drop 2).filter isHexDigitChar).take 128 =
          rootHash.drop 2 := by
        rw [hfeq]
        exact List.take_of_length_le (by omega)
      rw [hres, if_pos hst, htake]
      exact ⟨rfl, hlen⟩

/-- Witness for `c10_safeName_safety` at a concrete input: the sample key
and timestamp 0. -/
theorem c10_safeName_safety_witness :
    (0 < 36 ^ 128) ∧ safeName sampleKey 0 = sampleKey.drop 2 :=
  ⟨Nat.pos_pow_of_pos 128 (by decide),
   ((c10_safeName_safety sampleKey 0
      (Nat.pos_pow_of_pos 128 (by decide))).2.2.2.2.2 (by decide)).1⟩

end Gateway
